import Mathlib

/-!
# Property filter engine (main.go): filters and great-circle distance

The development embeds the five filter functions of main.go
(filterByNumber, filterByAmenity, filterByDesc, filterByLight,
filterByDistanceFunc) and getDistance.

Go values are embedded as follows.

* float64 is the type F64 of IEEE 754 binary64 values (one NaN, two
  infinities, signed finite values m * 2^e); every arithmetic operation is
  computed exactly on integers and rounded once, to nearest, ties to even.
* int is Int (the filters only convert it to float64).
* string is String, a sequence of Unicode code points (a Go string that is
  valid UTF-8).
* map[string]bool is an optional association list (none is the nil map).
* the functions of package math that getDistance calls (Sin, Cos, Acos) are
  embedded from the portable Go implementation of the standard library
  (sin.go, trig_reduce.go, asin.go, atan.go), each floating point operation
  rounded separately.
-/

namespace PropFilter

/-! ## float64 -/

/-- An IEEE 754 binary64 value. fin neg m e is (-1)^neg * m * 2^e, kept in
canonical form: m < 2^53, -1074 ≤ e ≤ 971, and m ≥ 2^52 unless e = -1074. -/
inductive F64 where
  | nan : F64
  | inf (neg : Bool) : F64
  | fin (neg : Bool) (m : Nat) (e : Int) : F64
  deriving DecidableEq, Repr

namespace F64

/-- Number of binary digits of n, by halving; fuel bounds the recursion. -/
def bitLenAux : Nat → Nat → Nat
  | 0, _ => 0
  | fuel + 1, n => if n = 0 then 0 else bitLenAux fuel (n / 2) + 1

/-- Number of binary digits of n (0 for 0). -/
def bitLen (n : Nat) : Nat := bitLenAux n n

/-- The float64 nearest to (-1)^neg * m * 2^e, ties to even; overflow gives an
infinity, m = 0 a signed zero. -/
def round (neg : Bool) (m : Nat) (e : Int) : F64 :=
  if m = 0 then fin neg 0 (-1074)
  else
    let e2 : Int := max (e + (bitLen m : Int) - 53) (-1074)
    if e2 ≤ e then fin neg (m * 2 ^ (e - e2).toNat) e2
    else
      let sh : Nat := (e2 - e).toNat
      let q : Nat := m / 2 ^ sh
      let r : Nat := m % 2 ^ sh
      let half : Nat := 2 ^ (sh - 1)
      let up : Bool := decide (half < r) || (decide (r = half) && decide (q % 2 = 1))
      let q2 : Nat := if up then q + 1 else q
      if q2 = 2 ^ 53 then
        (if 971 < e2 + 1 then inf neg else fin neg (2 ^ 52) (e2 + 1))
      else
        (if 971 < e2 then inf neg else fin neg q2 e2)

/-- Positive zero, the zero value of a Go float64 variable. -/
def zero : F64 := fin false 0 (-1074)

/-- The float64 constant 1. -/
def one : F64 := fin false (2 ^ 52) (-52)

/-- Conversion float64(n) of a Go integer. -/
def ofInt (n : Int) : F64 := round (decide (n < 0)) n.natAbs 0

/-- The value with the given IEEE 754 bit pattern (math.Float64frombits). -/
def ofBits (b : Nat) : F64 :=
  let s : Bool := decide (b / 2 ^ 63 % 2 = 1)
  let ex : Nat := b / 2 ^ 52 % 2 ^ 11
  let fr : Nat := b % 2 ^ 52
  if ex = 2047 then (if fr = 0 then inf s else nan)
  else if ex = 0 then fin s fr (-1074)
  else fin s (fr + 2 ^ 52) ((ex : Int) - 1075)

/-- The IEEE 754 bit pattern of a value (math.Float64bits); NaN is the
pattern of math.NaN(). -/
def toBits : F64 → Nat
  | nan => 0x7FF8000000000001
  | inf s => (if s then 2 ^ 63 else 0) + 2047 * 2 ^ 52
  | fin s m e =>
    (if s then 2 ^ 63 else 0) +
      (if m < 2 ^ 52 then m else (e + 1075).toNat * 2 ^ 52 + (m - 2 ^ 52))

/-- Unary minus. -/
def neg : F64 → F64
  | nan => nan
  | inf s => inf (!s)
  | fin s m e => fin (!s) m e

/-- Absolute value (math.Abs). -/
def abs : F64 → F64
  | nan => nan
  | inf _ => inf false
  | fin _ m e => fin false m e

/-- Product x * y. -/
def mul : F64 → F64 → F64
  | nan, _ => nan
  | _, nan => nan
  | inf s, inf t => inf (xor s t)
  | inf s, fin t m _ => if m = 0 then nan else inf (xor s t)
  | fin s m _, inf t => if m = 0 then nan else inf (xor s t)
  | fin s m e, fin t n f => round (xor s t) (m * n) (e + f)

/-- The signed integer k with (-1)^s * m * 2^e = k * 2^b, for b ≤ e. -/
def scaled (s : Bool) (m : Nat) (e b : Int) : Int :=
  let k : Int := ((m * 2 ^ (e - b).toNat : Nat) : Int)
  if s then -k else k

/-- Sum x + y. -/
def add : F64 → F64 → F64
  | nan, _ => nan
  | _, nan => nan
  | inf s, inf t => if s = t then inf s else nan
  | inf s, fin _ _ _ => inf s
  | fin _ _ _, inf t => inf t
  | fin s m e, fin t n f =>
    let b : Int := min e f
    let sum : Int := scaled s m e b + scaled t n f b
    if sum = 0 then fin (s && t) 0 (-1074)
    else round (decide (sum < 0)) sum.natAbs b

/-- Difference x - y. -/
def sub (x y : F64) : F64 := add x (neg y)

/-- Quotient x / y. -/
def div : F64 → F64 → F64
  | nan, _ => nan
  | _, nan => nan
  | inf _, inf _ => nan
  | inf s, fin t _ _ => inf (xor s t)
  | fin s _ _, inf t => fin (xor s t) 0 (-1074)
  | fin s m e, fin t n f =>
    if n = 0 then (if m = 0 then nan else inf (xor s t))
    else
      let k : Nat := bitLen n + 53
      let q : Nat := m * 2 ^ k / n
      let r : Nat := m * 2 ^ k % n
      round (xor s t) (4 * q + (if r = 0 then 0 else 1)) (e - f - (k : Int) - 2)

/-- Integer square root by bisection on the bits, from the top bit down. -/
def isqrtAux : Nat → Nat → Nat → Nat
  | 0, _, acc => acc
  | bit + 1, n, acc =>
    let c : Nat := acc + 2 ^ bit
    isqrtAux bit n (if c * c ≤ n then c else acc)

/-- Floor of the square root of n. -/
def isqrt (n : Nat) : Nat := isqrtAux (bitLen n / 2 + 1) n 0

/-- Square root (math.Sqrt), correctly rounded. -/
def sqrt : F64 → F64
  | nan => nan
  | inf s => if s then nan else inf false
  | fin s m e =>
    if m = 0 then fin s m e
    else if s then nan
    else
      let k : Nat := if (e - 110) % 2 = 0 then 110 else 111
      let n : Nat := m * 2 ^ k
      let r : Nat := isqrt n
      round false (4 * r + (if r * r = n then 0 else 1)) ((e - (k : Int)) / 2 - 2)

/-- Comparison x < y. -/
def lt : F64 → F64 → Bool
  | nan, _ => false
  | _, nan => false
  | inf s, inf t => s && !t
  | inf s, fin _ _ _ => s
  | fin _ _ _, inf t => !t
  | fin s m e, fin t n f =>
    decide (scaled s m e (min e f) < scaled t n f (min e f))

/-- Comparison x == y. -/
def eq : F64 → F64 → Bool
  | nan, _ => false
  | _, nan => false
  | inf s, inf t => s == t
  | inf _, fin _ _ _ => false
  | fin _ _ _, inf _ => false
  | fin s m e, fin t n f =>
    decide (scaled s m e (min e f) = scaled t n f (min e f))

/-- Comparison x <= y. -/
def le (x y : F64) : Bool := lt x y || eq x y

/-- Comparison x > y. -/
def gt (x y : F64) : Bool := lt y x

/-- Comparison x >= y. -/
def ge (x y : F64) : Bool := le y x

/-- Conversion uint64(x) of a non-negative finite value: the integer part,
modulo 2^64. -/
def toUint64 : F64 → Nat
  | nan => 0
  | inf _ => 0
  | fin _ m e => (if 0 ≤ e then m * 2 ^ e.toNat else m / 2 ^ (-e).toNat) % 2 ^ 64

/-- The float64 nearest to (-1)^neg * n / d (for d > 0): the value of a Go
constant expression, converted exactly once. -/
def ofRat (neg : Bool) (n d : Nat) : F64 :=
  let k : Nat := bitLen d + 53
  let q : Nat := n * 2 ^ k / d
  let r : Nat := n * 2 ^ k % d
  round neg (4 * q + (if r = 0 then 0 else 1)) (-(k : Int) - 2)

/-- Test math.IsNaN. -/
def isNaN : F64 → Bool
  | nan => true
  | _ => false

/-- Test math.IsInf(x, 0). -/
def isInf : F64 → Bool
  | inf _ => true
  | _ => false

instance : Neg F64 := ⟨neg⟩
instance : Add F64 := ⟨add⟩
instance : Sub F64 := ⟨sub⟩
instance : Mul F64 := ⟨mul⟩
instance : Div F64 := ⟨div⟩

end F64

/-! ## Package math: Sin, Cos, Acos -/

namespace math

open F64

/-- The digits of the constant math.Pi, an integer to be divided by 10^62. -/
def piDigits : Nat := 314159265358979323846264338327950288419716939937510582097494459

/-- The constant math.Pi as a float64. -/
def Pi : F64 := ofRat false piDigits (10 ^ 62)

/-- The constant expression Pi/2 as a float64. -/
def halfPi : F64 := ofRat false piDigits (2 * 10 ^ 62)

/-- The constant expression Pi/4 as a float64. -/
def quarterPi : F64 := ofRat false piDigits (4 * 10 ^ 62)

/-- The constant expression 4/Pi as a float64. -/
def fourOverPi : F64 := ofRat false (4 * 10 ^ 62) piDigits

/-- The constant 0.5. -/
def half : F64 := ofRat false 1 2

/-- First part of Pi/4 for the three-step argument reduction,
7.85398125648498535156e-1. -/
def PI4A : F64 := ofRat false 785398125648498535156 (10 ^ 21)

/-- Second part of Pi/4, 3.77489470793079817668e-8. -/
def PI4B : F64 := ofRat false 377489470793079817668 (10 ^ 28)

/-- Third part of Pi/4, 2.69515142907905952645e-15. -/
def PI4C : F64 := ofRat false 269515142907905952645 (10 ^ 35)

/-- Arguments from 2^29 on are reduced by trigReduce. -/
def reduceThreshold : F64 := ofInt (2 ^ 29)

/-- The binary digits of 4/Pi as 64-bit words, the integer part first. -/
def mPi4 : List Nat :=
  [0x0000000000000001, 0x45f306dc9c882a53, 0xf84eafa3ea69bb81, 0xb6c52b3278872083,
   0xfca2c757bd778ac3, 0x6e48dc74849ba5c0, 0x0c925dd413a32439, 0xfc3bd63962534e7d,
   0xd1046bea5d768909, 0xd338e04d68befc82, 0x7323ac7306a673e9, 0x3908bf177bf25076,
   0x3ff12fffbc0b301f, 0xde5e2316b414da3e, 0xda6cfd9e4f96136e, 0x9e8c7ecd3cbfd45a,
   0xea4f758fd7cbe2f6, 0x7a0e73ef14a525d4, 0xd7f6bf623f1aba10, 0xac06608df8f6d757]

/-- Left shift of a uint64 by a uint count. -/
def shl64 (a s : Nat) : Nat := if 64 ≤ s then 0 else a * 2 ^ s % 2 ^ 64

/-- Right shift of a uint64 by a uint count. -/
def shr64 (a s : Nat) : Nat := if 64 ≤ s then 0 else a / 2 ^ s

/-- Subtraction of uint values, modulo 2^64. -/
def subU64 (a b : Nat) : Nat := (a + 2 ^ 64 - b % 2 ^ 64) % 2 ^ 64

/-- Payne-Hanek reduction of x ≥ 0 modulo Pi/4: the octant j and the reduced
argument z (trig_reduce.go). -/
def trigReduce (x : F64) : Nat × F64 :=
  if lt x quarterPi then (0, x)
  else
    let bits : Nat := toBits x
    let exp : Int := ((bits / 2 ^ 52 % 2 ^ 11 : Nat) : Int) - 1023 - 52
    let ix : Nat := (bits - (bits / 2 ^ 52 % 2 ^ 11) * 2 ^ 52) ||| 2 ^ 52
    let u : Nat := ((exp + 61) % 2 ^ 64).toNat
    let digit : Nat := u / 64
    let bitshift : Nat := u % 64
    let z0 : Nat := shl64 (mPi4.getD digit 0) bitshift |||
      shr64 (mPi4.getD (digit + 1) 0) (subU64 64 bitshift)
    let z1 : Nat := shl64 (mPi4.getD (digit + 1) 0) bitshift |||
      shr64 (mPi4.getD (digit + 2) 0) (subU64 64 bitshift)
    let z2 : Nat := shl64 (mPi4.getD (digit + 2) 0) bitshift |||
      shr64 (mPi4.getD (digit + 3) 0) (subU64 64 bitshift)
    let z2hi : Nat := z2 * ix / 2 ^ 64
    let z1hi : Nat := z1 * ix / 2 ^ 64
    let z1lo : Nat := z1 * ix % 2 ^ 64
    let z0lo : Nat := z0 * ix % 2 ^ 64
    let lo : Nat := (z1lo + z2hi) % 2 ^ 64
    let c : Nat := (z1lo + z2hi) / 2 ^ 64
    let hi : Nat := (z0lo + z1hi + c) % 2 ^ 64
    let j : Nat := hi / 2 ^ 61
    let hi1 : Nat := shl64 hi 3 ||| shr64 lo 61
    let lz : Nat := 64 - bitLen hi1
    let e : Nat := subU64 1023 (lz + 1)
    let hi2 : Nat := shl64 hi1 (lz + 1) ||| shr64 lo (subU64 64 (lz + 1))
    let hi3 : Nat := shr64 hi2 (64 - 52) ||| shl64 e 52
    let z : F64 := ofBits hi3
    if j % 2 = 1 then ((j + 1) % 8, (z - one) * quarterPi)
    else (j, z * quarterPi)

/-- The octant j of x ≥ 0 and the remainder z of x modulo Pi/4, as sin and
cos both compute them. -/
def reduce (x : F64) : Nat × F64 :=
  if ge x reduceThreshold then trigReduce x
  else
    let j : Nat := toUint64 (x * fourOverPi)
    let y : F64 := ofInt j
    let j1 : Nat := if j % 2 = 1 then (j + 1) % 2 ^ 64 else j
    let y1 : F64 := if j % 2 = 1 then y + one else y
    (j1 % 8, ((x - y1 * PI4A) - y1 * PI4B) - y1 * PI4C)

/-- Sine polynomial on the reduced argument:
z + z*zz*((((((_sin[0]*zz)+_sin[1])*zz+_sin[2])*zz+_sin[3])*zz+_sin[4])*zz+_sin[5]). -/
def sinPoly (z zz : F64) : F64 :=
  z + z * zz *
    ((((((ofRat false 158962301576546568060 (10 ^ 30) * zz)
      + ofRat true 250507477628578072866 (10 ^ 28)) * zz
      + ofRat false 275573136213857245213 (10 ^ 26)) * zz
      + ofRat true 198412698295895385996 (10 ^ 24)) * zz
      + ofRat false 833333333332211858878 (10 ^ 23)) * zz
      + ofRat true 166666666666666307295 (10 ^ 21))

/-- Cosine polynomial on the reduced argument:
1.0 - 0.5*zz + zz*zz*((((((_cos[0]*zz)+_cos[1])*zz+_cos[2])*zz+_cos[3])*zz+_cos[4])*zz+_cos[5]). -/
def cosPoly (zz : F64) : F64 :=
  one - half * zz + zz * zz *
    ((((((ofRat true 113585365213876817300 (10 ^ 31) * zz)
      + ofRat false 208757008419747316778 (10 ^ 29)) * zz
      + ofRat true 275573141792967388112 (10 ^ 27)) * zz
      + ofRat false 248015872888517045348 (10 ^ 25)) * zz
      + ofRat true 138888888888730564116 (10 ^ 23)) * zz
      + ofRat false 416666666666665929218 (10 ^ 22))

/-- The function math.Sin (sin.go). -/
def Sin (x : F64) : F64 :=
  if eq x zero || isNaN x then x
  else if isInf x then nan
  else
    let neg0 : Bool := lt x zero
    let x1 : F64 := if neg0 then -x else x
    let jz : Nat × F64 := reduce x1
    let sign : Bool := if 3 < jz.1 then !neg0 else neg0
    let j : Nat := if 3 < jz.1 then jz.1 - 4 else jz.1
    let zz : F64 := jz.2 * jz.2
    let y : F64 := if j = 1 ∨ j = 2 then cosPoly zz else sinPoly jz.2 zz
    if sign then -y else y

/-- The function math.Cos (sin.go). -/
def Cos (x : F64) : F64 :=
  if isNaN x || isInf x then nan
  else
    let jz : Nat × F64 := reduce (abs x)
    let sign1 : Bool := decide (3 < jz.1)
    let j : Nat := if 3 < jz.1 then jz.1 - 4 else jz.1
    let sign : Bool := if 1 < j then !sign1 else sign1
    let zz : F64 := jz.2 * jz.2
    let y : F64 := if j = 1 ∨ j = 2 then sinPoly jz.2 zz else cosPoly zz
    if sign then -y else y

/-- Rational approximation of the arctangent on [0, 0.66] (atan.go). -/
def xatan (x : F64) : F64 :=
  let z : F64 := x * x
  let z1 : F64 :=
    z * ((((ofRat true 8750608600031904122785 (10 ^ 22) * z
        + ofRat true 1615753718733365076637 (10 ^ 20)) * z
        + ofRat true 7500855792314704667340 (10 ^ 20)) * z
        + ofRat true 1228866684490136173410 (10 ^ 19)) * z
        + ofRat true 6485021904942025371773 (10 ^ 20))
      / (((((z + ofRat false 2485846490142306297962 (10 ^ 20)) * z
        + ofRat false 1650270098316988542046 (10 ^ 19)) * z
        + ofRat false 4328810604912902668951 (10 ^ 19)) * z
        + ofRat false 4853903996359136964868 (10 ^ 19)) * z
        + ofRat false 1945506571482613964425 (10 ^ 19))
  x * z1 + x

/-- The constant Morebits = 6.123233995736765886130e-17 of atan.go. -/
def Morebits : F64 := ofRat false 6123233995736765886130 (10 ^ 38)

/-- The constant expression 0.5*Morebits. -/
def halfMorebits : F64 := ofRat false 6123233995736765886130 (2 * 10 ^ 38)

/-- The constant Tan3pio8 = 2.41421356237309504880 of atan.go. -/
def Tan3pio8 : F64 := ofRat false 241421356237309504880 (10 ^ 20)

/-- Arctangent of a non-negative argument, reduced to [0, 0.66] (atan.go). -/
def satan (x : F64) : F64 :=
  if le x (ofRat false 66 100) then xatan x
  else if gt x Tan3pio8 then halfPi - xatan (one / x) + Morebits
  else quarterPi + xatan ((x - one) / (x + one)) + halfMorebits

/-- The function math.Asin (asin.go). -/
def Asin (x : F64) : F64 :=
  if eq x zero then x
  else
    let sign : Bool := lt x zero
    let x1 : F64 := if sign then -x else x
    if gt x1 one then nan
    else
      let temp : F64 := sqrt (one - x1 * x1)
      let temp1 : F64 :=
        if gt x1 (ofRat false 7 10) then halfPi - satan (temp / x1)
        else satan (x1 / temp)
      if sign then -temp1 else temp1

/-- The function math.Acos (asin.go). -/
def Acos (x : F64) : F64 := halfPi - Asin x

end math

/-! ## The distance calculator -/

open F64 in
/-- The value getDistance passes to math.Acos: the cosine of the central
angle by the spherical law of cosines. -/
def acosArg (lat1 lon1 lat2 lon2 : F64) : F64 :=
  let radlat1 : F64 := (math.Pi * lat1) / ofInt 180
  let radlat2 : F64 := (math.Pi * lat2) / ofInt 180
  let theta : F64 := lon1 - lon2
  let radtheta : F64 := (math.Pi * theta) / ofInt 180
  math.Sin radlat1 * math.Sin radlat2 + math.Cos radlat1 * math.Cos radlat2 * math.Cos radtheta

open F64 in
/-- The function getDistance of main.go: miles between two points given in
degrees. -/
def getDistance (lat1 lon1 lat2 lon2 : F64) : F64 :=
  let dist : F64 := acosArg lat1 lon1 lat2 lon2
  let dist1 : F64 := math.Acos dist
  let dist2 : F64 := (dist1 * ofInt 180) / math.Pi
  dist2 * ofInt 60 * ofRat false 11515 10000

/-! ## Package strings: ToLower, Contains -/

namespace strings

/-- Lower case of an ASCII letter: c += 'a' - 'A' when 'A' <= c <= 'Z'. -/
def asciiLower (c : Char) : Char :=
  if 65 ≤ c.toNat ∧ c.toNat ≤ 90 then Char.ofNat (c.toNat + 32) else c

/-- The function unicode.ToLower: ASCII is handled directly, every other code
point goes through the case tables of package unicode, which are the
argument caseTable. -/
def unicodeToLower (caseTable : Char → Char) (r : Char) : Char :=
  if r.toNat ≤ 127 then asciiLower r else caseTable r

/-- The function strings.ToLower: a string of ASCII only is lower-cased byte
by byte (and returned as it is when it has no upper-case letter); any other
string is mapped code point by code point through unicode.ToLower. -/
def ToLower (caseTable : Char → Char) (s : String) : String :=
  if s.data.all (fun c => decide (c.toNat < 128)) then
    (if s.data.any (fun c => decide (65 ≤ c.toNat ∧ c.toNat ≤ 90)) then
      String.mk (s.data.map asciiLower)
    else s)
  else String.mk (s.data.map (unicodeToLower caseTable))

/-- Search of strings.Index: the position of the first occurrence of sub in s
at or after position i (s being what is left from i on), or -1. -/
def indexFrom : List Char → List Char → Nat → Int
  | [], sub, i => if sub.isPrefixOf [] then (i : Int) else -1
  | c :: cs, sub, i =>
    if sub.isPrefixOf (c :: cs) then (i : Int) else indexFrom cs sub (i + 1)

/-- The function strings.Index. -/
def Index (s substr : String) : Int := indexFrom s.data substr.data 0

/-- The function strings.Contains: Index(s, substr) >= 0. -/
def Contains (s substr : String) : Bool := decide (0 ≤ Index s substr)

end strings

/-! ## The data model -/

/-- The struct Property of main.go. -/
structure Property where
  SquareFootage : Int
  Lighting : String
  Price : F64
  Rooms : Int
  Bathrooms : Int
  Location : F64 × F64
  Description : String
  Amenities : Option (List (String × Bool))
  deriving DecidableEq

/-- Index expression m[key] on a map[string]bool: the value stored under key,
and false (the zero value) when the key is absent or the map is nil. -/
def mapIndex (m : Option (List (String × Bool))) (key : String) : Bool :=
  match m with
  | none => false
  | some entries => (entries.lookup key).getD false

/-! ## The filter engine -/

/-- The function filterByNumber of main.go. -/
def filterByNumber (properties : List Property) (field : String) (operator : String)
    (value : F64) : List Property :=
  properties.foldl
    (fun filtered property =>
      let fieldValue : F64 :=
        if field = "price" then property.Price
        else if field = "rooms" then F64.ofInt property.Rooms
        else if field = "bathrooms" then F64.ofInt property.Bathrooms
        else if field = "squareFootage" then F64.ofInt property.SquareFootage
        else F64.zero
      if operator = "equal" then
        (if F64.eq fieldValue value then filtered ++ [property] else filtered)
      else if operator = "lessThan" then
        (if F64.lt fieldValue value then filtered ++ [property] else filtered)
      else if operator = "greaterThan" then
        (if F64.gt fieldValue value then filtered ++ [property] else filtered)
      else filtered)
    []

/-- The function filterByAmenity of main.go. -/
def filterByAmenity (properties : List Property) (amenity : String) : List Property :=
  properties.foldl
    (fun filtered property =>
      if mapIndex property.Amenities amenity then filtered ++ [property] else filtered)
    []

/-- The function filterByDesc of main.go. -/
def filterByDesc (caseTable : Char → Char) (properties : List Property) (keyword : String) :
    List Property :=
  properties.foldl
    (fun filtered property =>
      if strings.Contains (strings.ToLower caseTable property.Description)
          (strings.ToLower caseTable keyword) then
        filtered ++ [property]
      else filtered)
    []

/-- The function filterByLight of main.go. -/
def filterByLight (properties : List Property) (lighting : String) : List Property :=
  properties.foldl
    (fun filtered property =>
      if property.Lighting = lighting then filtered ++ [property] else filtered)
    []

/-- The function filterByDistanceFunc of main.go. -/
def filterByDistanceFunc (properties : List Property) (userLocation : F64 × F64)
    (maxDistance : F64) : List Property :=
  let userLat : F64 := userLocation.1
  let userLon : F64 := userLocation.2
  properties.foldl
    (fun filtered property =>
      let propLat : F64 := property.Location.1
      let propLon : F64 := property.Location.2
      let distance : F64 := getDistance userLat userLon propLat propLon
      if F64.le distance maxDistance then filtered ++ [property] else filtered)
    []

/-! ## Vocabulary of the statements -/

/-- The float64 value filterByNumber compares for a field name: the named
field converted to float64, and the zero value for any other name. -/
def selectedField (field : String) (property : Property) : F64 :=
  if field = "price" then property.Price
  else if field = "rooms" then F64.ofInt property.Rooms
  else if field = "bathrooms" then F64.ofInt property.Bathrooms
  else if field = "squareFootage" then F64.ofInt property.SquareFootage
  else F64.zero

/-- The comparison filterByNumber makes for an operator name; no comparison
holds for any other name. -/
def comparison (operator : String) (x y : F64) : Bool :=
  if operator = "equal" then F64.eq x y
  else if operator = "lessThan" then F64.lt x y
  else if operator = "greaterThan" then F64.gt x y
  else false

/-- A result r is the selection from P by the predicate pred: r is a
subsequence of P (records of P, unchanged, in the order of P), every record
of r satisfies pred, and every record that satisfies pred occurs in r as
many times as in P. -/
def Selects (pred : Property → Bool) (r P : List Property) : Prop :=
  r.Sublist P ∧ (∀ x, x ∈ r → pred x = true) ∧ (∀ x, pred x = true → r.count x = P.count x)

/-- A string of ASCII characters only. -/
def isASCII (s : String) : Bool := s.data.all (fun c => decide (c.toNat < 128))

/-- A table for unicode.ToLower that changes no code point, for examples in
ASCII, which never reach the table. -/
def plainTable : Char → Char := fun c => c

/-- A record with a pool and no garage, in high lighting. -/
def house1 : Property :=
  { SquareFootage := 1200, Lighting := "high", Price := F64.ofInt 100000, Rooms := 3,
    Bathrooms := 1, Location := (F64.ofInt 40, F64.ofInt (-75)),
    Description := "Cozy house with a pool",
    Amenities := some [("pool", true), ("garage", false)] }

/-- A record at latitude 0, longitude 0, without an amenity map. -/
def house2 : Property :=
  { SquareFootage := 2000, Lighting := "medium", Price := F64.ofInt 250000, Rooms := 4,
    Bathrooms := 2, Location := (F64.zero, F64.zero),
    Description := "Large family home", Amenities := none }

/-- A record with the price of house2. -/
def house3 : Property :=
  { SquareFootage := 900, Lighting := "low", Price := F64.ofInt 250000, Rooms := 2,
    Bathrooms := 1, Location := (F64.ofInt 10, F64.ofInt (-75)),
    Description := "Flat near the park", Amenities := some [("garage", true)] }

/-! # Theorems -/

/-! ## Bit patterns of the constants -/

theorem Pi_bits : F64.toBits math.Pi = 0x400921FB54442D18 := by decide!

theorem fourOverPi_bits : F64.toBits math.fourOverPi = 0x3FF45F306DC9C883 := by decide!

theorem PI4_bits :
    F64.toBits math.PI4A = 0x3FE921FB40000000 ∧ F64.toBits math.PI4B = 0x3E64442D00000000
    ∧ F64.toBits math.PI4C = 0x3CE8469898CC5170 := by decide!

theorem miles_bits : F64.toBits (F64.ofRat false 11515 10000) = 0x3FF26C8B43958106 := by
  decide!

/-! ## float64 facts used by the distance calculator -/

namespace F64

theorem neg_nan : neg nan = nan := rfl

theorem neg_inf (s : Bool) : neg (inf s) = inf (!s) := rfl

theorem neg_fin (s : Bool) (m : Nat) (e : Int) : neg (fin s m e) = fin (!s) m e := rfl

theorem neg_round (s : Bool) (m : Nat) (e : Int) : neg (round s m e) = round (!s) m e := by
  unfold round
  simp only []
  split_ifs <;> rfl

theorem not_xor_right (s t : Bool) : xor s (!t) = !(xor s t) := by
  cases s <;> cases t <;> rfl

theorem not_xor_left (s t : Bool) : xor (!s) t = !(xor s t) := by
  cases s <;> cases t <;> rfl

theorem mul_commutes (x y : F64) : x * y = y * x := by
  show mul x y = mul y x
  cases x <;> cases y <;> simp [mul, Bool.xor_comm, Nat.mul_comm, Int.add_comm]

theorem mul_neg (x y : F64) : x * neg y = neg (x * y) := by
  show mul x (neg y) = neg (mul x y)
  rcases x with _ | s | ⟨s, m, e⟩ <;> rcases y with _ | t | ⟨t, n, f⟩ <;>
    simp only [mul, neg_nan, neg_inf, neg_fin, neg_round, not_xor_right]
  all_goals try split_ifs
  all_goals rfl

theorem neg_div (x y : F64) : neg x / y = neg (x / y) := by
  show div (neg x) y = neg (div x y)
  rcases x with _ | s | ⟨s, m, e⟩ <;> rcases y with _ | t | ⟨t, n, f⟩ <;>
    simp only [div, neg_nan, neg_inf, neg_fin, neg_round, not_xor_left]
  all_goals try split_ifs
  all_goals first | rfl | exact (neg_round _ _ _).symm

theorem le_self (x : F64) (h : x ≠ nan) : le x x = true := by
  cases x with
  | nan => exact absurd rfl h
  | inf s => simp [le, eq]
  | fin s m e => simp [le, eq]

theorem scaled_not (s : Bool) (m : Nat) (e b : Int) : scaled (!s) m e b = -scaled s m e b := by
  cases s <;> simp [scaled]

theorem sub_swap (x y : F64) : y - x = neg (x - y) ∨ y - x = x - y := by
  show add y (neg x) = neg (add x (neg y)) ∨ add y (neg x) = add x (neg y)
  rcases x with _ | s | ⟨s, m, e⟩ <;> rcases y with _ | t | ⟨t, n, f⟩ <;>
    simp only [add, neg_nan, neg_inf, neg_fin, or_self, true_or]
  · cases s <;> cases t <;> simp [neg_inf, neg_nan]
  · simp
  · rw [scaled_not, scaled_not, min_comm f e]
    by_cases h : scaled s m e (min e f) + -scaled t n f (min e f) = 0
    · have h2 : scaled t n f (min e f) + -scaled s m e (min e f) = 0 := by omega
      rw [if_pos h, if_pos h2]
      cases s <;> cases t <;> simp [neg_fin]
    · have h2 : ¬ scaled t n f (min e f) + -scaled s m e (min e f) = 0 := by omega
      rw [if_neg h, if_neg h2]
      left
      rw [neg_round]
      have e1 : (scaled t n f (min e f) + -scaled s m e (min e f)).natAbs
          = (scaled s m e (min e f) + -scaled t n f (min e f)).natAbs := by omega
      have e2 : decide (scaled t n f (min e f) + -scaled s m e (min e f) < 0)
          = !decide (scaled s m e (min e f) + -scaled t n f (min e f) < 0) := by
        by_cases h3 : scaled s m e (min e f) + -scaled t n f (min e f) < 0
        · have h4 : ¬ scaled t n f (min e f) + -scaled s m e (min e f) < 0 := by omega
          simp [h3, h4]
        · have h4 : scaled t n f (min e f) + -scaled s m e (min e f) < 0 := by omega
          simp [h3, h4]
      rw [e1, e2]

end F64

/-! ## Loops as selections -/

theorem foldl_select {α : Type} (f : α → Bool) (l init : List α) :
    l.foldl (fun filtered x => if f x then filtered ++ [x] else filtered) init
      = init ++ l.filter f := by
  induction l generalizing init with
  | nil => simp
  | cons a t ih =>
    simp only [List.foldl_cons, List.filter_cons]
    rw [ih]
    by_cases h : f a = true <;> simp [h]

theorem filterByNumber_eq (P : List Property) (field operator : String) (T : F64) :
    filterByNumber P field operator T
      = P.filter (fun p => comparison operator (selectedField field p) T) := by
  have h := foldl_select (fun p => comparison operator (selectedField field p) T) P []
  rw [List.nil_append] at h
  rw [← h]
  unfold filterByNumber
  congr 1
  funext filtered property
  unfold comparison selectedField
  by_cases h1 : operator = "equal"
  · simp [h1]
  · by_cases h2 : operator = "lessThan"
    · simp [h2]
    · by_cases h3 : operator = "greaterThan"
      · simp [h3]
      · simp [h1, h2, h3]

theorem filterByAmenity_eq (P : List Property) (a : String) :
    filterByAmenity P a = P.filter (fun p => mapIndex p.Amenities a) := by
  unfold filterByAmenity
  rw [foldl_select]; simp

theorem filterByLight_eq (P : List Property) (l : String) :
    filterByLight P l = P.filter (fun p => decide (p.Lighting = l)) := by
  unfold filterByLight
  have := foldl_select (fun p : Property => decide (p.Lighting = l)) P []
  simpa using this

theorem filterByDesc_eq (tbl : Char → Char) (P : List Property) (k : String) :
    filterByDesc tbl P k = P.filter (fun p =>
      strings.Contains (strings.ToLower tbl p.Description) (strings.ToLower tbl k)) := by
  unfold filterByDesc
  rw [foldl_select]; simp

theorem filterByDistanceFunc_eq (P : List Property) (u : F64 × F64) (r : F64) :
    filterByDistanceFunc P u r = P.filter (fun p =>
      F64.le (getDistance u.1 u.2 p.Location.1 p.Location.2) r) := by
  unfold filterByDistanceFunc
  simp only []
  rw [foldl_select]; simp

theorem selects_filter (f : Property → Bool) (P : List Property) :
    Selects f (P.filter f) P := by
  refine ⟨List.filter_sublist P, ?_, ?_⟩
  · intro x hx
    exact (List.mem_filter.mp hx).2
  · intro x hfx
    exact List.count_filter hfx

/-! ## Numeric filter -/

/-- C1. For each of the four field names and each of the three operator
names, filterByNumber returns the records of P whose field, converted to
float64, compares to the threshold by the float64 comparison of that name
(>, <, ==), in the order of P; on prices 100000, 250000, 250000 the filter
for price equal 250000 returns the second and third records in that order,
and the comparison for equal has no tolerance: the price next above 1 is not
selected by equal 1. -/
theorem C1_filterByNumber_exact (P : List Property) (T : F64) :
    (filterByNumber P "price" "greaterThan" T = P.filter (fun p => F64.gt p.Price T)
      ∧ filterByNumber P "price" "lessThan" T = P.filter (fun p => F64.lt p.Price T)
      ∧ filterByNumber P "price" "equal" T = P.filter (fun p => F64.eq p.Price T))
    ∧ (filterByNumber P "rooms" "greaterThan" T
          = P.filter (fun p => F64.gt (F64.ofInt p.Rooms) T)
      ∧ filterByNumber P "rooms" "lessThan" T
          = P.filter (fun p => F64.lt (F64.ofInt p.Rooms) T)
      ∧ filterByNumber P "rooms" "equal" T
          = P.filter (fun p => F64.eq (F64.ofInt p.Rooms) T))
    ∧ (filterByNumber P "bathrooms" "greaterThan" T
          = P.filter (fun p => F64.gt (F64.ofInt p.Bathrooms) T)
      ∧ filterByNumber P "bathrooms" "lessThan" T
          = P.filter (fun p => F64.lt (F64.ofInt p.Bathrooms) T)
      ∧ filterByNumber P "bathrooms" "equal" T
          = P.filter (fun p => F64.eq (F64.ofInt p.Bathrooms) T))
    ∧ (filterByNumber P "squareFootage" "greaterThan" T
          = P.filter (fun p => F64.gt (F64.ofInt p.SquareFootage) T)
      ∧ filterByNumber P "squareFootage" "lessThan" T
          = P.filter (fun p => F64.lt (F64.ofInt p.SquareFootage) T)
      ∧ filterByNumber P "squareFootage" "equal" T
          = P.filter (fun p => F64.eq (F64.ofInt p.SquareFootage) T))
    ∧ (∀ a b c : Property,
        filterByNumber
            [{ a with Price := F64.ofInt 100000 }, { b with Price := F64.ofInt 250000 },
             { c with Price := F64.ofInt 250000 }]
            "price" "equal" (F64.ofInt 250000)
          = [{ b with Price := F64.ofInt 250000 }, { c with Price := F64.ofInt 250000 }])
    ∧ (∀ a : Property,
        filterByNumber [{ a with Price := F64.fin false (2 ^ 52 + 1) (-52) }]
          "price" "equal" F64.one = []) := by
  refine ⟨⟨?_, ?_, ?_⟩, ⟨?_, ?_, ?_⟩, ⟨?_, ?_, ?_⟩, ⟨?_, ?_, ?_⟩, ?_, ?_⟩
  all_goals try (rw [filterByNumber_eq]; simp [comparison, selectedField])
  · intro a b c
    have h1 : F64.eq (F64.ofInt 100000) (F64.ofInt 250000) = false := by decide!
    have h2 : F64.eq (F64.ofInt 250000) (F64.ofInt 250000) = true := by decide!
    rw [filterByNumber_eq]
    simp [comparison, selectedField, h1, h2]
  · intro a
    rw [filterByNumber_eq]
    simp [comparison, selectedField]
    decide!

/-- C2, as the code has it. With an operator name other than equal, lessThan
and greaterThan the result is empty, whatever the field name. With a field
name other than price, rooms, bathrooms and squareFootage the value compared
is the float64 zero value for every record, so the result is all of P when
the comparison of 0 with the threshold holds, and empty when it does not. -/
theorem C2_filterByNumber_unknown (P : List Property) (field operator : String) (T : F64) :
    (operator ≠ "equal" → operator ≠ "lessThan" → operator ≠ "greaterThan" →
        filterByNumber P field operator T = [])
    ∧ (field ≠ "price" → field ≠ "rooms" → field ≠ "bathrooms" → field ≠ "squareFootage" →
        filterByNumber P field operator T
          = if comparison operator F64.zero T then P else []) := by
  constructor
  · intro h1 h2 h3
    rw [filterByNumber_eq]
    simp [comparison, h1, h2, h3]
  · intro h1 h2 h3 h4
    rw [filterByNumber_eq]
    simp only [selectedField, h1, h2, h3, h4, if_false]
    by_cases h : comparison operator F64.zero T = true <;> simp [h]

/-- C2 at a concrete input: an unknown operator gives the empty result, and
an unknown field with a comparison that fails for 0 gives the empty result. -/
theorem C2_filterByNumber_unknown_witness :
    filterByNumber [house1, house2] "price" "between" (F64.ofInt 5) = []
    ∧ filterByNumber [house1, house2] "colour" "greaterThan" (F64.ofInt 5) = [] :=
  ⟨(C2_filterByNumber_unknown [house1, house2] "price" "between" (F64.ofInt 5)).1
      (by decide) (by decide) (by decide),
   ((C2_filterByNumber_unknown [house1, house2] "colour" "greaterThan" (F64.ofInt 5)).2
      (by decide) (by decide) (by decide) (by decide)).trans (by decide!)⟩

/-- C2 fails as stated: with the unknown field name colour, the operator
equal and the threshold 0, filterByNumber returns the record it was given,
not the empty result. -/
theorem C2_unknown_field_not_empty :
    filterByNumber [house1] "colour" "equal" F64.zero = [house1] := by decide!

/-! ## Amenity, lighting and description filters -/

/-- C4. A record is in filterByAmenity(P, a) exactly when it is a record of P
whose amenity map has the key a with the value true; a record without a map,
without the key, or with the value false is left out (the map index is total:
it gives false there). A record with pool true and garage false is selected
for pool and not for garage. -/
theorem C4_filterByAmenity_iff (P : List Property) (a : String) :
    (∀ p, p ∈ filterByAmenity P a ↔
        p ∈ P ∧ ∃ m, p.Amenities = some m ∧ m.lookup a = some true)
    ∧ (∀ p, p.Amenities = none → p ∉ filterByAmenity P a)
    ∧ (∀ p m, p.Amenities = some m → m.lookup a = none → p ∉ filterByAmenity P a)
    ∧ (∀ p m, p.Amenities = some m → m.lookup a = some false → p ∉ filterByAmenity P a)
    ∧ (∀ p, p ∈ P → p.Amenities = some [("pool", true), ("garage", false)] →
        p ∈ filterByAmenity P "pool" ∧ p ∉ filterByAmenity P "garage") := by
  have key : ∀ p, p ∈ filterByAmenity P a ↔
      p ∈ P ∧ ∃ m, p.Amenities = some m ∧ m.lookup a = some true := by
    intro p
    rw [filterByAmenity_eq, List.mem_filter]
    constructor
    · rintro ⟨hp, h⟩
      refine ⟨hp, ?_⟩
      cases hm : p.Amenities with
      | none => simp [mapIndex, hm] at h
      | some m =>
        refine ⟨m, rfl, ?_⟩
        cases hl : m.lookup a with
        | none => simp [mapIndex, hm, hl] at h
        | some b => simpa [mapIndex, hm, hl] using h
    · rintro ⟨hp, m, hm, hl⟩
      exact ⟨hp, by simp [mapIndex, hm, hl]⟩
  refine ⟨key, ?_, ?_, ?_, ?_⟩
  · intro p hn hp
    obtain ⟨_, m, hm, _⟩ := (key p).mp hp
    rw [hn] at hm; cases hm
  · intro p m hm hl hp
    obtain ⟨_, m2, hm2, hl2⟩ := (key p).mp hp
    rw [hm] at hm2; cases hm2
    rw [hl] at hl2; cases hl2
  · intro p m hm hl hp
    obtain ⟨_, m2, hm2, hl2⟩ := (key p).mp hp
    rw [hm] at hm2; cases hm2
    rw [hl] at hl2; cases hl2
  · intro p hp hm
    constructor
    · rw [filterByAmenity_eq, List.mem_filter]
      exact ⟨hp, by rw [hm]; decide⟩
    · rw [filterByAmenity_eq, List.mem_filter]
      rintro ⟨_, h⟩
      rw [hm] at h
      exact absurd h (by decide)

/-- C4 at a concrete input: house1 has pool true and garage false. -/
theorem C4_filterByAmenity_witness :
    house1 ∈ filterByAmenity [house1, house2] "pool"
    ∧ house1 ∉ filterByAmenity [house1, house2] "garage"
    ∧ house2 ∉ filterByAmenity [house1, house2] "pool" :=
  ⟨((C4_filterByAmenity_iff [house1, house2] "pool").2.2.2.2 house1 (by decide) rfl).1,
   ((C4_filterByAmenity_iff [house1, house2] "pool").2.2.2.2 house1 (by decide) rfl).2,
   (C4_filterByAmenity_iff [house1, house2] "pool").2.1 house2 rfl⟩

/-- C10. A record is in filterByLight(P, l) exactly when it is a record of P
whose lighting field equals l, character for character: a record whose
lighting is high is not selected for High. -/
theorem C10_filterByLight_iff (P : List Property) (l : String) :
    (∀ p, p ∈ filterByLight P l ↔ p ∈ P ∧ p.Lighting = l)
    ∧ (∀ p, p.Lighting = "high" → p ∉ filterByLight P "High") := by
  constructor
  · intro p
    rw [filterByLight_eq, List.mem_filter]
    simp
  · intro p hp h
    rw [filterByLight_eq, List.mem_filter] at h
    rw [hp] at h
    exact absurd h.2 (by decide)

/-- C10 at a concrete input: house1 has lighting high. -/
theorem C10_filterByLight_witness :
    house1 ∉ filterByLight [house1, house2] "High"
    ∧ house1 ∈ filterByLight [house1, house2] "high" :=
  ⟨(C10_filterByLight_iff [house1, house2] "high").2 house1 rfl,
   ((C10_filterByLight_iff [house1, house2] "high").1 house1).mpr ⟨by decide, rfl⟩⟩

/-! ## Description filter -/

theorem indexFrom_nonneg_iff (s sub : List Char) (i : Nat) :
    0 ≤ strings.indexFrom s sub i ↔ sub <:+: s := by
  induction s generalizing i with
  | nil =>
    unfold strings.indexFrom
    by_cases h : sub.isPrefixOf [] = true
    · simp only [h, if_true]
      have : sub = [] := by simpa using h
      subst this; simp
    · simp only [h]
      have hne : sub ≠ [] := by
        intro e; subst e; simp at h
      simp [hne]
  | cons c cs ih =>
    unfold strings.indexFrom
    rw [List.infix_cons_iff]
    by_cases h : sub.isPrefixOf (c :: cs) = true
    · simp only [h, if_true]
      have hp : sub <+: c :: cs := List.isPrefixOf_iff_prefix.mp h
      simp [hp]
    · simp only [h]
      have hp : ¬ sub <+: c :: cs := fun hp => h (List.isPrefixOf_iff_prefix.mpr hp)
      simp [hp, ih]

theorem Contains_iff (s sub : String) :
    strings.Contains s sub = true ↔ sub.data <:+: s.data := by
  unfold strings.Contains strings.Index
  simp [indexFrom_nonneg_iff]

theorem map_asciiLower_of_no_upper (l : List Char)
    (h : l.any (fun c => decide (65 ≤ c.toNat ∧ c.toNat ≤ 90)) = false) :
    l.map strings.asciiLower = l := by
  induction l with
  | nil => rfl
  | cons c cs ih =>
    simp only [List.any_cons, Bool.or_eq_false_iff] at h
    have hc : ¬ (65 ≤ c.toNat ∧ c.toNat ≤ 90) := by simpa using h.1
    simp only [List.map_cons, ih h.2]
    simp [strings.asciiLower, hc]

theorem ToLower_ascii (tbl : Char → Char) (s : String) (h : isASCII s = true) :
    (strings.ToLower tbl s).data = s.data.map strings.asciiLower := by
  unfold isASCII at h
  unfold strings.ToLower
  rw [if_pos h]
  by_cases hu : s.data.any (fun c => decide (65 ≤ c.toNat ∧ c.toNat ≤ 90)) = true
  · rw [if_pos hu]
  · rw [if_neg hu]
    exact (map_asciiLower_of_no_upper s.data (by simpa using hu)).symm

theorem pool_infix_ToLower (tbl : Char → Char) (d : String)
    (h : "pool".data <:+: d.data) : "pool".data <:+: (strings.ToLower tbl d).data := by
  unfold strings.ToLower
  split
  · split
    · exact List.IsInfix.map strings.asciiLower h
    · exact h
  · have h2 := List.IsInfix.map (strings.unicodeToLower tbl) h
    have e : List.map (strings.unicodeToLower tbl) "pool".data = "pool".data := by
      simp [strings.unicodeToLower, strings.asciiLower]
    rw [e] at h2
    exact h2

/-- C7. A record is in filterByDesc(P, k) exactly when it is a record of P
and the lower-cased keyword occurs as a contiguous part of the lower-cased
description. Hence two keywords with the same lower-casing select the same
records, as do two ASCII keywords that differ only in the case of their
letters; and the keyword POOL selects every record whose description
contains pool. -/
theorem C7_filterByDesc_iff (tbl : Char → Char) (P : List Property) (k : String) :
    (∀ p, p ∈ filterByDesc tbl P k ↔
        p ∈ P ∧ (strings.ToLower tbl k).data <:+: (strings.ToLower tbl p.Description).data)
    ∧ (∀ k2, strings.ToLower tbl k2 = strings.ToLower tbl k →
        filterByDesc tbl P k2 = filterByDesc tbl P k)
    ∧ (∀ k2, isASCII k = true → isASCII k2 = true →
        k2.data.map strings.asciiLower = k.data.map strings.asciiLower →
        filterByDesc tbl P k2 = filterByDesc tbl P k)
    ∧ (∀ p, p ∈ P → "pool".data <:+: p.Description.data → p ∈ filterByDesc tbl P "POOL") := by
  have same : ∀ k2, strings.ToLower tbl k2 = strings.ToLower tbl k →
      filterByDesc tbl P k2 = filterByDesc tbl P k := by
    intro k2 h
    rw [filterByDesc_eq, filterByDesc_eq, h]
  refine ⟨?_, same, ?_, ?_⟩
  · intro p
    rw [filterByDesc_eq, List.mem_filter, Contains_iff]
  · intro k2 hk hk2 h
    apply same
    have e : (strings.ToLower tbl k2).data = (strings.ToLower tbl k).data := by
      rw [ToLower_ascii tbl k2 hk2, ToLower_ascii tbl k hk, h]
    exact String.ext e
  · intro p hp h
    rw [filterByDesc_eq, List.mem_filter, Contains_iff]
    refine ⟨hp, ?_⟩
    have e : strings.ToLower tbl "POOL" = "pool" := by
      apply String.ext
      rw [ToLower_ascii tbl "POOL" (by decide)]
      decide
    rw [e]
    exact pool_infix_ToLower tbl p.Description h

/-- C7 at a concrete input: the description of house1 contains pool. -/
theorem C7_filterByDesc_witness :
    house1 ∈ filterByDesc plainTable [house1, house2] "POOL"
    ∧ filterByDesc plainTable [house1, house2] "Pool"
        = filterByDesc plainTable [house1, house2] "pOOL" :=
  ⟨(C7_filterByDesc_iff plainTable [house1, house2] "POOL").2.2.2 house1 (by decide)
      (by decide),
   (C7_filterByDesc_iff plainTable [house1, house2] "pOOL").2.2.1 "Pool" (by decide)
      (by decide) (by decide)⟩

/-- C8. The empty keyword selects every record: filterByDesc(P, "") is P, the
same records in the same order. -/
theorem C8_filterByDesc_empty (tbl : Char → Char) (P : List Property) :
    filterByDesc tbl P "" = P := by
  rw [filterByDesc_eq]
  have e : strings.ToLower tbl "" = "" := by
    apply String.ext
    rw [ToLower_ascii tbl "" (by decide)]
    decide
  rw [e]
  apply List.filter_eq_self.mpr
  intro p _
  rw [Contains_iff]
  exact List.nil_infix

/-! ## All five filters select -/

/-- C9. The result of each of the five filters is a subsequence of P: its
records are records of P, unchanged and in the order of P; every record of
the result satisfies the filter's predicate; and every record that satisfies
the predicate occurs in the result as many times as in P, so nothing that
matches is dropped or merged (a record given twice and selected is returned
twice, in place). -/
theorem C9_filters_select (tbl : Char → Char) (P : List Property) (field operator : String)
    (T : F64) (amenity keyword lighting : String) (userLocation : F64 × F64)
    (maxDistance : F64) :
    Selects (fun p => comparison operator (selectedField field p) T)
        (filterByNumber P field operator T) P
    ∧ Selects (fun p => mapIndex p.Amenities amenity) (filterByAmenity P amenity) P
    ∧ Selects
        (fun p => strings.Contains (strings.ToLower tbl p.Description)
          (strings.ToLower tbl keyword))
        (filterByDesc tbl P keyword) P
    ∧ Selects (fun p => decide (p.Lighting = lighting)) (filterByLight P lighting) P
    ∧ Selects
        (fun p => F64.le
          (getDistance userLocation.1 userLocation.2 p.Location.1 p.Location.2) maxDistance)
        (filterByDistanceFunc P userLocation maxDistance) P
    ∧ filterByLight [house1, house2, house1] "high" = [house1, house1]
    ∧ filterByDistanceFunc [house2, house1, house2] (F64.zero, F64.zero) F64.zero
        = [house2, house2] := by
  rw [filterByNumber_eq, filterByAmenity_eq, filterByDesc_eq, filterByLight_eq,
    filterByDistanceFunc_eq]
  exact ⟨selects_filter _ P, selects_filter _ P, selects_filter _ P, selects_filter _ P,
    selects_filter _ P, by decide, by decide!⟩

/-- C9 at concrete inputs: the empty list and a result that stops early are
not the selection, since house1 matches twice in the input. -/
theorem C9_filters_select_witness :
    Selects (fun p => decide (p.Lighting = "high"))
        (filterByLight [house1, house2, house1] "high") [house1, house2, house1]
    ∧ ¬ Selects (fun p => decide (p.Lighting = "high")) [] [house1, house2, house1]
    ∧ ¬ Selects (fun p => decide (p.Lighting = "high")) [house1] [house1, house2, house1] :=
  ⟨(C9_filters_select plainTable [house1, house2, house1] "price" "equal" F64.zero "pool"
      "pool" "high" (F64.zero, F64.zero) F64.zero).2.2.2.1,
   fun h => absurd (h.2.2 house1 (by decide)) (by decide),
   fun h => absurd (h.2.2 house1 (by decide)) (by decide)⟩

theorem Cos_neg (x : F64) : math.Cos (F64.neg x) = math.Cos x := by
  cases x <;> rfl

theorem acosArg_symm (lat1 lon1 lat2 lon2 : F64) :
    acosArg lat1 lon1 lat2 lon2 = acosArg lat2 lon2 lat1 lon1 := by
  unfold acosArg
  simp only []
  have hc : math.Cos ((math.Pi * (lon2 - lon1)) / F64.ofInt 180)
      = math.Cos ((math.Pi * (lon1 - lon2)) / F64.ofInt 180) := by
    rcases F64.sub_swap lon1 lon2 with h | h
    · rw [h, F64.mul_neg, F64.neg_div, Cos_neg]
    · rw [h]
  rw [hc, F64.mul_commutes (math.Sin ((math.Pi * lat2) / F64.ofInt 180)),
    F64.mul_commutes (math.Cos ((math.Pi * lat2) / F64.ofInt 180))]

/-! ## Distance calculator and distance filter -/

/-- C3, as the code has it. getDistance gives math.Acos the value it computed,
as it is. For two coincident points for which that value is exactly 1, the
result is exactly 0. -/
theorem C3_getDistance_coincident (lat lon : F64) (h : acosArg lat lon lat lon = F64.one) :
    getDistance lat lon lat lon = F64.zero := by
  unfold getDistance
  simp only [h]
  decide!

/-- C3 at a concrete input: at latitude 40, longitude -75 the value given to
math.Acos is exactly 1 and the distance of the point to itself is 0. -/
theorem C3_getDistance_coincident_witness :
    acosArg (F64.ofInt 40) (F64.ofInt (-75)) (F64.ofInt 40) (F64.ofInt (-75)) = F64.one
    ∧ getDistance (F64.ofInt 40) (F64.ofInt (-75)) (F64.ofInt 40) (F64.ofInt (-75))
        = F64.zero :=
  ⟨by decide!, C3_getDistance_coincident (F64.ofInt 40) (F64.ofInt (-75)) (by decide!)⟩

/-- C3 fails as stated: at latitude 2.5, longitude -75 the value getDistance
gives to math.Acos for the point and itself is greater than 1 (it is not
clamped), and the distance is NaN, not 0. -/
theorem C3_coincident_nan :
    F64.gt (acosArg (F64.ofRat false 5 2) (F64.ofInt (-75)) (F64.ofRat false 5 2)
        (F64.ofInt (-75))) F64.one = true
    ∧ getDistance (F64.ofRat false 5 2) (F64.ofInt (-75)) (F64.ofRat false 5 2)
        (F64.ofInt (-75)) = F64.nan := by
  decide!

/-- C6. getDistance is symmetric: exchanging the two points gives the same
float64 result (the same number, or NaN both ways); when the result is a
number the two results also compare equal with ==. -/
theorem C6_getDistance_symm (lat1 lon1 lat2 lon2 : F64) :
    getDistance lat1 lon1 lat2 lon2 = getDistance lat2 lon2 lat1 lon1
    ∧ (getDistance lat1 lon1 lat2 lon2 ≠ F64.nan →
        F64.eq (getDistance lat1 lon1 lat2 lon2) (getDistance lat2 lon2 lat1 lon1) = true) := by
  have h : getDistance lat1 lon1 lat2 lon2 = getDistance lat2 lon2 lat1 lon1 := by
    unfold getDistance
    rw [acosArg_symm]
  refine ⟨h, ?_⟩
  intro hn
  rw [← h]
  cases hx : getDistance lat1 lon1 lat2 lon2 with
  | nan => exact absurd hx hn
  | inf s => simp [F64.eq]
  | fin s m e => simp [F64.eq]

/-- C6 at a concrete input: the distance between (40, -75) and (41, -74) is
a number, the same both ways. -/
theorem C6_getDistance_symm_witness :
    F64.eq (getDistance (F64.ofInt 40) (F64.ofInt (-75)) (F64.ofInt 41) (F64.ofInt (-74)))
      (getDistance (F64.ofInt 41) (F64.ofInt (-74)) (F64.ofInt 40) (F64.ofInt (-75))) = true :=
  (C6_getDistance_symm (F64.ofInt 40) (F64.ofInt (-75)) (F64.ofInt 41) (F64.ofInt (-74))).2
    (by decide!)

/-- C5. A record is in filterByDistanceFunc(P, u, r) exactly when it is a
record of P whose distance from u, by getDistance, is <= r. The bound is
inclusive: a record whose distance is the number r itself is selected; and
with the user at (0, 0) and r = 0 a record at (0, 0) is selected. -/
theorem C5_filterByDistanceFunc_iff (P : List Property) (u : F64 × F64) (r : F64) :
    (∀ p, p ∈ filterByDistanceFunc P u r ↔
        p ∈ P ∧ F64.le (getDistance u.1 u.2 p.Location.1 p.Location.2) r = true)
    ∧ (∀ p, p ∈ P → r ≠ F64.nan → getDistance u.1 u.2 p.Location.1 p.Location.2 = r →
        p ∈ filterByDistanceFunc P u r)
    ∧ (∀ p, p ∈ P → p.Location = (F64.zero, F64.zero) →
        p ∈ filterByDistanceFunc P (F64.zero, F64.zero) F64.zero) := by
  refine ⟨?_, ?_, ?_⟩
  · intro p
    rw [filterByDistanceFunc_eq, List.mem_filter]
  · intro p hp hr hd
    rw [filterByDistanceFunc_eq, List.mem_filter]
    refine ⟨hp, ?_⟩
    rw [hd]
    exact F64.le_self r hr
  · intro p hp hl
    rw [filterByDistanceFunc_eq, List.mem_filter]
    refine ⟨hp, ?_⟩
    rw [hl]
    decide!

/-- C5 at concrete inputs: house2 lies at (0, 0) and is selected for the user
at (0, 0) with radius 0; house1 lies at (40, -75) and is selected for the user
at (41, -74) with the radius equal to its distance. -/
theorem C5_filterByDistanceFunc_witness :
    house2 ∈ filterByDistanceFunc [house1, house2] (F64.zero, F64.zero) F64.zero
    ∧ house1 ∈ filterByDistanceFunc [house1, house2] (F64.ofInt 41, F64.ofInt (-74))
        (getDistance (F64.ofInt 41) (F64.ofInt (-74)) (F64.ofInt 40) (F64.ofInt (-75))) :=
  ⟨(C5_filterByDistanceFunc_iff [house1, house2] (F64.zero, F64.zero) F64.zero).2.2 house2
      (by decide) rfl,
   (C5_filterByDistanceFunc_iff [house1, house2] (F64.ofInt 41, F64.ofInt (-74))
      (getDistance (F64.ofInt 41) (F64.ofInt (-74)) (F64.ofInt 40) (F64.ofInt (-75)))).2.1
      house1 (by decide) (by decide!) rfl⟩

end PropFilter
